import Mathlib

/-!
Verification development for the `log-events` filesystem watcher.

The Rust sources (src/rule.rs, src/mac.rs, src/linux.rs, src/error.rs,
src/lib.rs) are shallowly embedded below.  Paths are finite component
lists with a flag recording whether the path is representable as text
(Rust `PathBuf::to_str` returning `Some`/`None`); the operating system
(filesystem queries, glob expansion, inotify descriptor allocation,
symlink resolution) is an explicit oracle passed to each operation, so
every definition stays executable on concrete inputs.
-/

set_option maxHeartbeats 1000000

namespace LogEvents

/-- Rust `PathBuf`: a sequence of components plus a flag saying whether
`to_str` succeeds (UTF-8 representability).  Components are Lean strings;
the flag models the only observable property of non-UTF-8 paths used by
the sources. -/
structure PathBuf where
  rep : List String
  valid : Bool
deriving DecidableEq

/-- `PathBuf::to_str`: some textual rendering when representable. -/
def PathBuf.toStr (p : PathBuf) : Option String :=
  if p.valid then some (String.intercalate ("/") p.rep) else none

/-- `PathBuf::join`: append one component (the child names handed to the
handlers are assumed representable, like all literal Rust strings). -/
def PathBuf.join (p : PathBuf) (s : String) : PathBuf :=
  ⟨p.rep ++ [s], p.valid⟩

/-- `Event` from src/lib.rs. -/
inductive Event where
  | Create (p : PathBuf)
  | Write (p : PathBuf)
  | Delete (p : PathBuf)
  | Init (p : PathBuf)
deriving DecidableEq

/-- The two `Rule` implementations from src/rule.rs (`RegexRule`,
`GlobRule`).  Each carries its compiled pattern's matcher on strings;
both implementations first call `to_str` and answer `false` on a
non-representable path. -/
inductive PathRule where
  | regex (pred : String → Bool)
  | glob (pred : String → Bool)

/-- `Rule::matches` for both implementations in src/rule.rs. -/
def ruleMatches (r : PathRule) (item : PathBuf) : Bool :=
  match r with
  | .regex pred =>
    match item.toStr with
    | some s => pred s
    | none => false
  | .glob pred =>
    match item.toStr with
    | some s => pred s
    | none => false

/-- `Rules` from src/rule.rs; the Rust fields are named `include` and
`exclude` (Lean keywords, hence the plural spelling here). -/
structure Rules where
  includes : List PathRule
  excludes : List PathRule

/-- `Rules::new`. -/
def Rules.new : Rules := ⟨[], []⟩

/-- The first loop of `Rules::matches`: early-return `false` on the first
include rule that does not match. -/
def matchesAllIncl (rules : List PathRule) (item : PathBuf) : Bool :=
  match rules with
  | [] => true
  | r :: rest =>
    if ruleMatches r item then matchesAllIncl rest item else false

/-- The second loop of `Rules::matches`: early-return `false` on the
first exclude rule that matches. -/
def matchesNoExcl (rules : List PathRule) (item : PathBuf) : Bool :=
  match rules with
  | [] => true
  | r :: rest =>
    if ruleMatches r item then false else matchesNoExcl rest item

/-- `Rules::matches` from src/rule.rs: both loops in order. -/
def Rules.matches (self : Rules) (item : PathBuf) : Bool :=
  if matchesAllIncl self.includes item then matchesNoExcl self.excludes item
  else false

/-- The filesystem/glob oracle consumed by the macOS backend
(`Path::is_file`, `Path::exists`, `glob::glob`).  `glob` returns `none`
for a pattern error and otherwise the readable matched paths in
iteration order (unreadable entries are skipped by the source with a
comment, so they do not appear in the list). -/
structure FileSystem where
  pathExists : PathBuf → Bool
  isFile : PathBuf → Bool
  glob : String → Option (List PathBuf)

/-- `WatchError` from src/error.rs. -/
inductive WatchError where
  | Excluded (msg : String)
  | InvalidPath (msg : String)
deriving DecidableEq

/-- `HashSet::contains` on the tracked-file set. -/
def containsPath (s : List PathBuf) (p : PathBuf) : Bool :=
  decide (p ∈ s)

/-- `HashSet::insert`: no duplicate is ever created. -/
def insertPath (s : List PathBuf) (p : PathBuf) : List PathBuf :=
  if p ∈ s then s else p :: s

/-- `HashSet::remove`. -/
def erasePath (s : List PathBuf) (p : PathBuf) : List PathBuf :=
  s.filter fun q => decide (q ≠ p)

/-- `MacOsWatcher` state from src/mac.rs.  The fsevent channel pair is
owned by the watcher; the only observable piece of the `fsevent_thread`
handle is whether it was spawned and which root list the spawned thread
captured, which is what the `fsevent_thread` field records here. -/
structure MacOsWatcher where
  watched_files : List PathBuf
  watched_dirs : List String
  fsevent_thread : Option (List String)
  rules : Rules

/-- `MacOsWatcher::new`. -/
def MacOsWatcher.new (rules : Rules) : MacOsWatcher :=
  ⟨[], [], none, rules⟩

/-- Rust `format!` with a `Debug` string argument surrounds the text
with quotes (escaping of quote/backslash characters inside the path is
elided; the concrete paths used below contain none). -/
def debugQuote (s : String) : String :=
  "\"" ++ s ++ "\""

/-- `MacOsWatcher::add` from src/mac.rs.  The rule check comes first;
then `to_str`; a file path is inserted directly (the subsequent
`true_path.pop()` only mutates the local variable — the string pushed to
`watched_dirs` was captured before the pop); a non-file path is expanded
with `glob` over the debug-formatted pattern and every matched entry is
inserted.  The source formats the offending path into each error
message; the message prose is kept, the formatted path elided. -/
def MacOsWatcher.add (w : MacOsWatcher) (fs : FileSystem) (path : PathBuf) :
    Except WatchError MacOsWatcher :=
  if !(w.rules.matches path) then
    Except.error (WatchError.Excluded ("has been excluded"))
  else
    match path.toStr with
    | none => Except.error (WatchError.InvalidPath ("is an invalid path"))
    | some str =>
      if fs.isFile path then
        Except.ok { w with
          watched_files := insertPath w.watched_files path,
          watched_dirs := w.watched_dirs ++ [str] }
      else
        match fs.glob (debugQuote str ++ ("/**/*")) with
        | some entries =>
          Except.ok { w with
            watched_files := entries.foldl insertPath w.watched_files,
            watched_dirs := w.watched_dirs ++ [str] }
        | none => Except.error (WatchError.InvalidPath ("is an invalid path"))

/-- `MacOsWatcher::init`: guarded on `fsevent_thread.is_some()` (second
call logs a warning and returns); otherwise spawns the delivery thread,
which captures a clone of `watched_dirs`. -/
def MacOsWatcher.init (w : MacOsWatcher) : MacOsWatcher :=
  if w.fsevent_thread.isSome then w
  else { w with fsevent_thread := some w.watched_dirs }

/-- `MacOsWatcher::handle_create`. -/
def MacOsWatcher.handle_create (w : MacOsWatcher) (fs : FileSystem)
    (path : PathBuf) (events : List Event) : MacOsWatcher × List Event :=
  if !(fs.pathExists path) || containsPath w.watched_files path then
    (w, events)
  else if !(w.rules.matches path) then (w, events)
  else ({ w with watched_files := insertPath w.watched_files path },
    events ++ [Event.Create path])

/-- `MacOsWatcher::handle_modify` (takes `&self`: the state is not
mutated, only the event buffer). -/
def MacOsWatcher.handle_modify (w : MacOsWatcher) (path : PathBuf)
    (events : List Event) : List Event :=
  if !(containsPath w.watched_files path) then events
  else events ++ [Event.Write path]

/-- `MacOsWatcher::handle_delete`. -/
def MacOsWatcher.handle_delete (w : MacOsWatcher) (fs : FileSystem)
    (path : PathBuf) (events : List Event) : MacOsWatcher × List Event :=
  if !(containsPath w.watched_files path) || fs.pathExists path then
    (w, events)
  else ({ w with watched_files := erasePath w.watched_files path },
    events ++ [Event.Delete path])

/-- `MacOsWatcher::handle_move`. -/
def MacOsWatcher.handle_move (w : MacOsWatcher) (fs : FileSystem)
    (path : PathBuf) (events : List Event) : MacOsWatcher × List Event :=
  if !(fs.pathExists path) then w.handle_delete fs path events
  else w.handle_create fs path events

/-- The fsevent stream flags consulted by `MacOsEventStream::poll`. -/
structure MacFlags where
  is_file : Bool
  item_removed : Bool
  item_renamed : Bool
  item_modified : Bool
  item_created : Bool
deriving DecidableEq

/-- One raw fsevent record (`fsevent::Event`): a path string plus flags;
`PathBuf::from` on a Rust `String` always yields a representable path. -/
structure MacRawEvent where
  path : List String
  flags : MacFlags
deriving DecidableEq

/-- The flag dispatch block in `MacOsEventStream::poll`: a non-file
record is skipped; otherwise the handlers run in the fixed order
removed, renamed, modified, created, each appending to the buffer. -/
def processRawEvent (w : MacOsWatcher) (fs : FileSystem) (raw : MacRawEvent)
    (events : List Event) : MacOsWatcher × List Event :=
  if !raw.flags.is_file then (w, events)
  else
    let path : PathBuf := ⟨raw.path, true⟩
    let s1 := if raw.flags.item_removed then w.handle_delete fs path events
      else (w, events)
    let s2 := if raw.flags.item_renamed then
        s1.1.handle_move fs path s1.2
      else s1
    let es3 := if raw.flags.item_modified then
        s2.1.handle_modify path s2.2
      else s2.2
    if raw.flags.item_created then s2.1.handle_create fs path es3
    else (s2.1, es3)

/-- The `while self.events.is_empty()` loop of `MacOsEventStream::poll`:
pull raw records (modelled as a queue list; an exhausted queue stands
for the blocking receive with nothing ever arriving, i.e. no result)
until the buffer is non-empty.  The `mem::replace` on the empty vector
only re-allocates and has no semantic effect. -/
def pollLoop (w : MacOsWatcher) (fs : FileSystem) (events : List Event) :
    List MacRawEvent → Option (MacOsWatcher × List Event × List MacRawEvent)
  | [] => if events.isEmpty then none else some (w, events, [])
  | raw :: rest =>
    if events.isEmpty then
      let s := processRawEvent w fs raw events
      pollLoop s.1 fs s.2 rest
    else some (w, events, raw :: rest)

/-- `MacOsEventStream::poll`: run the loop, then `pop()` one event from
the back of the buffer.  The source's `None => self.poll()` fallback is
unreachable (the loop only exits on a non-empty buffer) and is modelled
as `none`. -/
def poll (w : MacOsWatcher) (fs : FileSystem) (events : List Event)
    (queue : List MacRawEvent) :
    Option (Event × MacOsWatcher × List Event × List MacRawEvent) :=
  match pollLoop w fs events queue with
  | none => none
  | some (w2, es, q) =>
    match es.getLast? with
    | some e => some (e, w2, es.dropLast, q)
    | none => none

/-- The trace of events returned by a given number of successive `poll`
calls, starting from a buffer and a queue of pending raw records: what
the consumer observes across pulls. -/
def pullTrace (w : MacOsWatcher) (fs : FileSystem) :
    Nat → List Event → List MacRawEvent → List Event
  | 0, _, _ => []
  | fuel + 1, es, q =>
    match poll w fs es q with
    | none => []
    | some (e, w2, es2, q2) => e :: pullTrace w2 fs fuel es2 q2

/-- Classifier for `MacOsWatcher::add` results: an `Excluded` error. -/
def isExcludedErr : Except WatchError MacOsWatcher → Bool
  | Except.error (WatchError.Excluded _) => true
  | Except.error (WatchError.InvalidPath _) => false
  | Except.ok _ => false

/-- Classifier for `MacOsWatcher::add` results: an `InvalidPath` error. -/
def isInvalidPathErr : Except WatchError MacOsWatcher → Bool
  | Except.error (WatchError.InvalidPath _) => true
  | Except.error (WatchError.Excluded _) => false
  | Except.ok _ => false

/-- Characterization (stated for the amended C6): the condition under
which the macOS `add` reaches an `InvalidPath` error, given that the
rule check has already passed. -/
def macInvalidCond (fs : FileSystem) (p : PathBuf) : Bool :=
  match p.toStr with
  | none => true
  | some str => !(fs.isFile p) && (fs.glob (debugQuote str ++ ("/**/*"))).isNone

/-- Association-list lookup, standing for `HashMap::get`. -/
def alookup {α β : Type} [DecidableEq α] : List (α × β) → α → Option β
  | [], _ => none
  | e :: rest, k => if e.1 = k then some e.2 else alookup rest k

/-- Association-list key removal, standing for `HashMap::remove`. -/
def aerase {α β : Type} [DecidableEq α] : List (α × β) → α → List (α × β)
  | [], _ => []
  | e :: rest, k => if e.1 = k then aerase rest k else e :: aerase rest k

/-- Set insertion on inotify watch descriptors. -/
def insertNat (l : List Nat) (n : Nat) : List Nat :=
  if n ∈ l then l else n :: l

/-- Set removal on inotify watch descriptors (`inotify.rm_watch`). -/
def removeNat (l : List Nat) (n : Nat) : List Nat :=
  l.filter fun m => decide (m ≠ n)

/-- The operating-system oracle consumed by the Linux (descriptor)
backend: filesystem kind queries, glob expansion, `read_link`, the
existence of the rotation target at successive poll iterations
(`existsSeq p n` is whether `p` exists at the n-th 100 ms poll step),
and the watch descriptor `inotify.add_watch` hands out for a path
(`none` models a registration error). -/
structure LinuxEnv where
  isFile : PathBuf → Bool
  isDir : PathBuf → Bool
  glob : String → Option (List PathBuf)
  readLink : PathBuf → Option PathBuf
  existsSeq : PathBuf → Nat → Bool
  alloc : PathBuf → Option Nat

/-- Modelled from the spec: the `Options` type carried by
`LinuxEventStreamer` and the `check_path` helper it calls are referenced
by src/linux.rs but defined in code of this repository that is not under
src/.  Per the spec, the Rule Engine "gates every admission decision the
core makes" and registration "skip[s] (log) if rejected by the Rule
Engine", so `Options` is the Rule Engine's rule set and `check_path` is
`Rules::matches`. -/
def check_path (options : Rules) (path : PathBuf) : Bool :=
  options.matches path

/-- `LinuxEventStreamer` state from src/linux.rs: the two watch-state
maps, the set of watch descriptors currently registered with the OS
(the `inotify` instance), and the options consulted by `check_path`. -/
structure LinuxEventStreamer where
  watch_descriptor_map : List (Nat × PathBuf)
  path_map : List (PathBuf × Nat)
  inotify_watches : List Nat
  options : Rules

/-- `LinuxEventStreamer::new`. -/
def LinuxEventStreamer.new (options : Rules) : LinuxEventStreamer :=
  ⟨[], [], [], options⟩

/-- The per-path body of `LinuxEventStreamer::add`: skip (log) when the
rules reject the path; choose the watch mask from `is_dir` (structural
create+delete for a directory, move-self+modify for a file — the mask
configures the native registration and is not otherwise observed by the
watch state, so it is not stored); skip a path already tracked; register
with the OS (`alloc`; a `none` result is the logged `inotify add error`
and skips the path, a successful registration stays in the OS watch set
even when the subsequent duplicate-descriptor check skips the path);
skip a duplicate watch descriptor; otherwise insert into both maps. -/
def LinuxEventStreamer.addOne (s : LinuxEventStreamer) (env : LinuxEnv)
    (path : PathBuf) : LinuxEventStreamer :=
  if !(check_path s.options path) then s
  else if (alookup s.path_map path).isSome then s
  else
    match env.alloc path with
    | none => s
    | some wd =>
      if (alookup s.watch_descriptor_map wd).isSome then
        { s with inotify_watches := insertNat s.inotify_watches wd }
      else { s with
        inotify_watches := insertNat s.inotify_watches wd,
        path_map := (path, wd) :: s.path_map,
        watch_descriptor_map := (wd, path) :: s.watch_descriptor_map }

/-- The `for path in paths` loop of `LinuxEventStreamer::add` (erroneous
glob entries are skipped by the source and do not appear in the list). -/
def LinuxEventStreamer.addPaths (s : LinuxEventStreamer) (env : LinuxEnv) :
    List PathBuf → LinuxEventStreamer
  | [] => s
  | p :: rest => (s.addOne env p).addPaths env rest

/-- `LinuxEventStreamer::add`: glob the pattern (a pattern error is
logged and returns with no state change), then register each match. -/
def LinuxEventStreamer.add (s : LinuxEventStreamer) (env : LinuxEnv)
    (pattern : String) : LinuxEventStreamer :=
  match env.glob pattern with
  | none => s
  | some paths => s.addPaths env paths

/-- `LinuxEventStreamer::handle_create`: a record without a child name
is ignored; a file child is `add`ed and, if admitted, a Create is
emitted; a directory child is `add`ed itself, its recursive glob is
`add`ed, and a Create is emitted for each globbed path that is a file
and is admitted. -/
def LinuxEventStreamer.handle_create (s : LinuxEventStreamer)
    (env : LinuxEnv) (base : PathBuf) (name : Option String) (isdir : Bool)
    (events : List Event) : LinuxEventStreamer × List Event :=
  match name with
  | none => (s, events)
  | some n =>
    let path := base.join n
    if !isdir then
      let s1 := match path.toStr with
        | some str => s.add env str
        | none => s
      if check_path s1.options path then (s1, events ++ [Event.Create path])
      else (s1, events)
    else
      let s1 := match path.toStr with
        | some str => s.add env str
        | none => s
      match (path.join ("**/*")).toStr with
      | none => (s1, events)
      | some g =>
        let s2 := s1.add env g
        match env.glob g with
        | none => (s2, events)
        | some paths =>
          (s2, events ++ (paths.filter
            (fun p => env.isFile p && check_path s2.options p)).map Event.Create)

/-- `LinuxEventStreamer::handle_delete`: a record without a child name
is ignored; if the child is tracked both maps drop it; a non-directory
record emits Delete for the child unconditionally. -/
def LinuxEventStreamer.handle_delete (s : LinuxEventStreamer)
    (base : PathBuf) (name : Option String) (isdir : Bool)
    (events : List Event) : LinuxEventStreamer × List Event :=
  match name with
  | none => (s, events)
  | some n =>
    let path := base.join n
    let s1 := match alookup s.path_map path with
      | some wd =>
        { s with
          watch_descriptor_map := aerase s.watch_descriptor_map wd,
          path_map := aerase s.path_map path }
      | none => s
    if !isdir then (s1, events ++ [Event.Delete path]) else (s1, events)

/-- `LinuxEventStreamer::handle_modify`. -/
def LinuxEventStreamer.handle_modify (s : LinuxEventStreamer)
    (env : LinuxEnv) (path : PathBuf) (events : List Event) :
    LinuxEventStreamer × List Event :=
  if env.isFile path then (s, events ++ [Event.Write path]) else (s, events)

/-- The rotation poll loop of `LinuxEventStreamer::handle_move`: at the
n-th iteration about `n * 100` ms have elapsed (one 100 ms sleep per
iteration); the loop first checks existence, then gives up once the
elapsed time exceeds the 5 s timeout, so existence is checked at
iterations 0 through 51.  The structural fuel starts at 51 and its
exhaustion branch is unreachable (the timeout test fires first). -/
def rotationPollFrom (existsAt : Nat → Bool) : Nat → Nat → Option Nat
  | remaining, n =>
    if existsAt n then some n
    else if n * 100 > 5000 then none
    else
      match remaining with
      | 0 => none
      | r + 1 => rotationPollFrom existsAt r (n + 1)

/-- The whole bounded existence poll (5 s timeout, 100 ms interval):
the iteration index at which the target appeared, or `none` on
timeout. -/
def rotationPoll (existsAt : Nat → Bool) : Option Nat :=
  rotationPollFrom existsAt 51 0

/-- The opening block of `LinuxEventStreamer::handle_move`: if the path
is tracked, remove the OS watch (`rm_watch`; an error is only logged),
drop the pair from both maps and emit Delete for the old path. -/
def LinuxEventStreamer.moveUnregister (s : LinuxEventStreamer)
    (path : PathBuf) (events : List Event) :
    LinuxEventStreamer × List Event :=
  match alookup s.path_map path with
  | some wd =>
    ({ s with
        inotify_watches := removeNat s.inotify_watches wd,
        watch_descriptor_map := aerase s.watch_descriptor_map wd,
        path_map := aerase s.path_map path },
      events ++ [Event.Delete path])
  | none => (s, events)

/-- `LinuxEventStreamer::handle_move`: the unregister block above, then
resolve the real target via `read_link` with the original path as
fallback; poll for the real target's existence; on timeout log and
return with no further event; on success `add` the original path string
and, if admitted, emit Create for the original path. -/
def LinuxEventStreamer.handle_move (s : LinuxEventStreamer)
    (env : LinuxEnv) (path : PathBuf) (events : List Event) :
    LinuxEventStreamer × List Event :=
  let step1 := s.moveUnregister path events
  let real_path := (env.readLink path).getD path
  match rotationPoll (env.existsSeq real_path) with
  | none => step1
  | some _ =>
    let s2 := match path.toStr with
      | some str => step1.1.add env str
      | none => step1.1
    if check_path s2.options path then (s2, step1.2 ++ [Event.Create path])
    else (s2, step1.2)

/-- One raw inotify record (`inotify::Event`): watch descriptor, the
mask bits consulted by the source, and the optional child name. -/
structure LinuxRawEvent where
  wd : Nat
  create : Bool
  delete : Bool
  modify : Bool
  move_self : Bool
  isdir : Bool
  name : Option String
deriving DecidableEq

/-- The per-record dispatch of `LinuxEventStreamer::stream`: resolve
the record's watch descriptor to a base path (an unknown descriptor is
logged and ignored), then branch on the mask in the fixed order
CREATE, DELETE, MODIFY, MOVE_SELF. -/
def LinuxEventStreamer.dispatch (s : LinuxEventStreamer) (env : LinuxEnv)
    (raw : LinuxRawEvent) (events : List Event) :
    LinuxEventStreamer × List Event :=
  match alookup s.watch_descriptor_map raw.wd with
  | none => (s, events)
  | some path =>
    if raw.create then s.handle_create env path raw.name raw.isdir events
    else if raw.delete then s.handle_delete path raw.name raw.isdir events
    else if raw.modify then s.handle_modify env path events
    else if raw.move_self then s.handle_move env path events
    else (s, events)

/-- `LinuxEventStreamer::init` (the `EventStreamer` impl): simply
`add`s every pattern — there is no once-only guard. -/
def LinuxEventStreamer.init (s : LinuxEventStreamer) (env : LinuxEnv)
    (patterns : List String) : LinuxEventStreamer :=
  patterns.foldl (fun acc pat => acc.add env pat) s

/-- One watch-state mutation of the descriptor backend: either a direct
`add(pattern)` call or the reconciliation of one raw native record
(which covers the create/delete/modify/move-self handlers).  Each
operation carries the OS oracle observed at that moment, since the
filesystem changes between calls. -/
inductive WatchOp where
  | add (env : LinuxEnv) (pattern : String)
  | record (env : LinuxEnv) (raw : LinuxRawEvent)

/-- Apply one operation to the watch state. -/
def applyOp (s : LinuxEventStreamer) : WatchOp → LinuxEventStreamer
  | .add env pat => s.add env pat
  | .record env raw => (s.dispatch env raw []).1

/-- Apply a sequence of operations to the watch state. -/
def applyOps (s : LinuxEventStreamer) (ops : List WatchOp) :
    LinuxEventStreamer :=
  ops.foldl applyOp s

/-- The dual-map invariant: the handle→path map and the path→handle map
are exact mirrors of each other. -/
def Mirror (s : LinuxEventStreamer) : Prop :=
  ∀ (wd : Nat) (p : PathBuf),
    alookup s.watch_descriptor_map wd = some p ↔
      alookup s.path_map p = some wd

/- Concrete oracles and states used by witnesses and counterexamples. -/

/-- A concrete representable path. -/
def paW : PathBuf := ⟨[("a")], true⟩

/-- A second concrete representable path, distinct from `paW`. -/
def pbW : PathBuf := ⟨[("b")], true⟩

/-- A non-representable path (`to_str` fails). -/
def pBad : PathBuf := ⟨[("x")], false⟩

/-- Filesystem oracle on which every path exists and is a file. -/
def fsAllFiles : FileSystem := ⟨fun _ => true, fun _ => true, fun _ => some []⟩

/-- A watcher already tracking `paW`, with an empty rule set. -/
def wTracking : MacOsWatcher := ⟨[paW], [], none, Rules.new⟩

/-- Fresh watcher with an empty rule set. -/
def wFresh : MacOsWatcher := MacOsWatcher.new Rules.new

/-- Raw composite record (file, renamed and modified flags set) used by
the C9 witness: reconciliation synthesizes Create then Write. -/
def rawRenMod : MacRawEvent :=
  ⟨[("a")], ⟨true, false, true, true, false⟩⟩

/-- A rule set with one include rule that matches every representable
path (and hence no non-representable path). -/
def rulesInc : Rules := ⟨[PathRule.regex fun _ => true], []⟩

/-- A rule set whose exclude rule matches every representable path. -/
def rulesExcl : Rules := ⟨[], [PathRule.glob fun _ => true]⟩

/-- Watcher built over `rulesInc`. -/
def wInc : MacOsWatcher := MacOsWatcher.new rulesInc

/-- `/data` as a path. -/
def dirData : PathBuf := ⟨[(""), ("data")], true⟩

/-- `/data/sub` as a path. -/
def subData : PathBuf := ⟨[(""), ("data"), ("sub")], true⟩

/-- `/data/sub/x.log` as a path. -/
def xlogData : PathBuf := ⟨[(""), ("data"), ("sub"), ("x.log")], true⟩

/-- Filesystem oracle for the C7 counterexample: `/data` is a directory
whose recursive glob matches a subdirectory and a file. -/
def fsDirGlob : FileSystem :=
  ⟨fun _ => true,
    fun p => decide (p = xlogData),
    fun str => if str = debugQuote ("/data") ++ ("/**/*")
      then some [subData, xlogData] else some []⟩

/-- Linux oracle for the C4 scenario: `/data/sub` is a directory whose
recursive glob contains the pre-existing file `/data/sub/x.log`. -/
def env4 : LinuxEnv :=
  ⟨fun p => decide (p = xlogData),
    fun p => decide (p = subData),
    fun str => if str = ("/data/sub") then some [subData]
      else if str = ("/data/sub/**/*") then some [xlogData] else some [],
    fun _ => none,
    fun _ _ => true,
    fun p => if p = subData then some 1
      else if p = xlogData then some 2 else none⟩

/-- Descriptor-backend state watching `/data` under an empty rule set. -/
def s4 : LinuxEventStreamer := ⟨[(0, dirData)], [(dirData, 0)], [0], Rules.new⟩

/-- Linux oracle for the C3 scenario: `paW` is a symbolic link resolving
to `pbW`, which exists immediately; re-adding `paW` allocates
descriptor 1. -/
def envMove : LinuxEnv :=
  ⟨fun _ => true, fun _ => false,
    fun str => if str = ("a") then some [paW] else some [],
    fun p => if p = paW then some pbW else none,
    fun _ _ => true,
    fun p => if p = paW then some 1 else none⟩

/-- Descriptor-backend state tracking `paW` under descriptor 0. -/
def sMove : LinuxEventStreamer := ⟨[(0, paW)], [(paW, 0)], [0], Rules.new⟩

/-- A non-directory delete record for child `"x"` of the watched base. -/
def rawDel : LinuxRawEvent := ⟨0, false, true, false, false, false, some ("x")⟩

/-- Descriptor-backend state watching `/data` under exclude-all rules. -/
def sDel : LinuxEventStreamer := ⟨[(0, dirData)], [(dirData, 0)], [0], rulesExcl⟩

/-- Linux oracle whose glob always matches `paW` (never admitted by
`rulesExcl`) and whose registration always fails. -/
def envEx : LinuxEnv :=
  ⟨fun _ => true, fun _ => false, fun _ => some [paW],
    fun _ => none, fun _ _ => true, fun _ => none⟩

/-- Fresh descriptor-backend state under exclude-all rules. -/
def sEx : LinuxEventStreamer := LinuxEventStreamer.new rulesExcl

/-- Oracle at the time of a first `init`: the pattern matches `paW`. -/
def env8a : LinuxEnv :=
  ⟨fun _ => true, fun _ => false, fun _ => some [paW], fun _ => none,
    fun _ _ => true,
    fun p => if p = paW then some 0 else if p = pbW then some 1 else none⟩

/-- Oracle at the time of a second `init`: a new file `pbW` now also
matches the same pattern. -/
def env8b : LinuxEnv :=
  ⟨fun _ => true, fun _ => false, fun _ => some [paW, pbW], fun _ => none,
    fun _ _ => true,
    fun p => if p = paW then some 0 else if p = pbW then some 1 else none⟩

/-- Operation list for the C5 witness. -/
def opsW : List WatchOp :=
  [WatchOp.add envMove ("a"), WatchOp.record envMove rawDel]

/-- Linux oracle whose glob always fails with a pattern error. -/
def envNone : LinuxEnv :=
  ⟨fun _ => true, fun _ => false, fun _ => none, fun _ => none,
    fun _ _ => true, fun _ => none⟩

/- Theorems. -/

theorem matchesAllIncl_iff (l : List PathRule) (p : PathBuf) :
    matchesAllIncl l p = true ↔ ∀ r ∈ l, ruleMatches r p = true := by
  induction l with
  | nil => simp [matchesAllIncl]
  | cons r rest ih =>
    constructor
    · intro h
      unfold matchesAllIncl at h
      by_cases hr : ruleMatches r p = true
      · rw [if_pos hr] at h
        intro x hx
        rcases List.mem_cons.mp hx with h1 | h2
        · exact h1 ▸ hr
        · exact ih.mp h x h2
      · rw [if_neg hr] at h
        exact absurd h (by simp)
    · intro h
      unfold matchesAllIncl
      have hr : ruleMatches r p = true := h r (List.mem_cons_self r rest)
      rw [if_pos hr]
      exact ih.mpr fun x hx => h x (List.mem_cons_of_mem r hx)

theorem matchesNoExcl_iff (l : List PathRule) (p : PathBuf) :
    matchesNoExcl l p = true ↔ ∀ r ∈ l, ruleMatches r p = false := by
  induction l with
  | nil => simp [matchesNoExcl]
  | cons r rest ih =>
    constructor
    · intro h
      unfold matchesNoExcl at h
      by_cases hr : ruleMatches r p = true
      · rw [if_pos hr] at h
        exact absurd h (by simp)
      · rw [if_neg hr] at h
        intro x hx
        rcases List.mem_cons.mp hx with h1 | h2
        · exact h1 ▸ Bool.eq_false_iff.mpr hr
        · exact ih.mp h x h2
    · intro h
      unfold matchesNoExcl
      have hr : ruleMatches r p = false := h r (List.mem_cons_self r rest)
      have hr' : ¬ ruleMatches r p = true := by
        rw [hr]
        exact Bool.false_ne_true
      rw [if_neg hr']
      exact ih.mpr fun x hx => h x (List.mem_cons_of_mem r hx)

/-- C1: `Rules::matches` returns `true` iff every include predicate
matches the path and no exclude predicate matches it; with an empty
include list the result depends solely on the excludes, and a `RuleSet`
with no rules at all admits every path. -/
theorem c1_ruleset_matches (rs : Rules) (p : PathBuf) :
    (rs.matches p = true ↔
      ((∀ r ∈ rs.includes, ruleMatches r p = true) ∧
        ∀ r ∈ rs.excludes, ruleMatches r p = false))
    ∧ (rs.includes = [] →
        (rs.matches p = true ↔ ∀ r ∈ rs.excludes, ruleMatches r p = false))
    ∧ (rs.includes = [] → rs.excludes = [] → rs.matches p = true) := by
  refine ⟨?_, ?_, ?_⟩
  · unfold Rules.matches
    by_cases h : matchesAllIncl rs.includes p = true
    · rw [if_pos h, matchesNoExcl_iff]
      rw [matchesAllIncl_iff] at h
      exact ⟨fun hx => ⟨h, hx⟩, fun hx => hx.2⟩
    · rw [if_neg h]
      constructor
      · intro hcon
        exact absurd hcon (by simp)
      · intro hx
        exact absurd ((matchesAllIncl_iff rs.includes p).mpr hx.1) h
  · intro hinc
    unfold Rules.matches
    rw [hinc]
    simp [matchesAllIncl, matchesNoExcl_iff]
  · intro hinc hexc
    unfold Rules.matches
    rw [hinc, hexc]
    simp [matchesAllIncl, matchesNoExcl]

/-- Witness for C1 at a concrete empty rule set and concrete path. -/
theorem c1_ruleset_matches_witness :
    Rules.matches ⟨[], []⟩ ⟨[("a")], true⟩ = true :=
  (c1_ruleset_matches ⟨[], []⟩ ⟨[("a")], true⟩).2.2 rfl rfl

theorem pullTrace_idle (fs : FileSystem) :
    ∀ (n : Nat) (w : MacOsWatcher) (es : List Event), es.length ≤ n →
      pullTrace w fs n es [] = es.reverse := by
  intro n
  induction n with
  | zero =>
    intro w es h
    have hnil : es = [] := List.length_eq_zero.mp (Nat.le_zero.mp h)
    subst hnil
    rfl
  | succ n ih =>
    intro w es h
    rcases List.eq_nil_or_concat es with hnil | ⟨ys, y, rfl⟩
    · subst hnil
      rfl
    · rw [List.concat_eq_append] at h ⊢
      have hlen : ys.length ≤ n := by
        simp only [List.length_append, List.length_cons, List.length_nil] at h
        omega
      have hemp : (ys ++ [y]).isEmpty = false := by
        cases ys <;> rfl
      simp only [pullTrace, poll, pollLoop, hemp, Bool.false_eq_true, if_false,
        List.getLast?_concat, List.dropLast_concat]
      rw [ih w ys hlen]
      simp

/-- C2: each reconciliation handler of the notification backend
preserves the tracked-file-set invariant: `handle_create` leaves the
state untouched (no event) for an already-tracked path and only appends
an event for an untracked path that exists on disk; `handle_modify`
produces no event for a never-tracked path and only appends for a
tracked one; `handle_delete` only appends for a tracked path that no
longer exists on disk. -/
theorem c2_tracked_set_invariant (w : MacOsWatcher) (fs : FileSystem)
    (p : PathBuf) (events : List Event) :
    (containsPath w.watched_files p = true →
      w.handle_create fs p events = (w, events))
    ∧ ((w.handle_create fs p events).2 ≠ events →
        containsPath w.watched_files p = false ∧ fs.pathExists p = true)
    ∧ (containsPath w.watched_files p = false →
        w.handle_modify p events = events)
    ∧ (w.handle_modify p events ≠ events →
        containsPath w.watched_files p = true)
    ∧ ((w.handle_delete fs p events).2 ≠ events →
        containsPath w.watched_files p = true ∧ fs.pathExists p = false) := by
  refine ⟨?_, ?_, ?_, ?_, ?_⟩
  · intro h
    simp [MacOsWatcher.handle_create, h]
  · intro h
    by_cases hex : fs.pathExists p = true
    · by_cases hc : containsPath w.watched_files p = true
      · exact absurd (by simp [MacOsWatcher.handle_create, hc]) h
      · exact ⟨Bool.eq_false_iff.mpr hc, hex⟩
    · have hex' : fs.pathExists p = false := Bool.eq_false_iff.mpr hex
      exact absurd (by simp [MacOsWatcher.handle_create, hex']) h
  · intro h
    simp [MacOsWatcher.handle_modify, h]
  · intro h
    by_cases hc : containsPath w.watched_files p = true
    · exact hc
    · have hc' : containsPath w.watched_files p = false := Bool.eq_false_iff.mpr hc
      exact absurd (by simp [MacOsWatcher.handle_modify, hc']) h
  · intro h
    by_cases hc : containsPath w.watched_files p = true
    · by_cases hex : fs.pathExists p = true
      · exact absurd (by simp [MacOsWatcher.handle_delete, hex]) h
      · exact ⟨hc, Bool.eq_false_iff.mpr hex⟩
    · have hc' : containsPath w.watched_files p = false := Bool.eq_false_iff.mpr hc
      exact absurd (by simp [MacOsWatcher.handle_delete, hc']) h

/-- Witness for C2: on a watcher already tracking the path, a created
record leaves the watcher unchanged and appends nothing. -/
theorem c2_tracked_set_invariant_witness :
    wTracking.handle_create fsAllFiles paW [] = (wTracking, []) :=
  (c2_tracked_set_invariant wTracking fsAllFiles paW []).1 (by decide)

/-- C9: when one composite raw record appends more than one event to
the (previously empty) internal buffer during a single poll, the
consumer's successive pulls return those events in the reverse of the
order they were synthesized, because each pull pops one event from the
back of the buffer. -/
theorem c9_reverse_pop_order (w : MacOsWatcher) (fs : FileSystem)
    (raw : MacRawEvent)
    (h : 1 < ((processRawEvent w fs raw []).2).length) :
    pullTrace w fs ((processRawEvent w fs raw []).2).length [] [raw]
      = ((processRawEvent w fs raw []).2).reverse := by
  rcases List.eq_nil_or_concat ((processRawEvent w fs raw []).2) with hnil | hc
  · rw [hnil] at h
    simp at h
  · obtain ⟨ys, y, hc⟩ := hc
    rw [List.concat_eq_append] at hc
    rw [hc]
    have hemp : (ys ++ [y]).isEmpty = false := by
      cases ys <;> rfl
    have hlen : (ys ++ [y]).length = ys.length + 1 := by simp
    rw [hlen]
    simp only [pullTrace, poll, pollLoop, List.isEmpty_nil, if_true, hc, hemp,
      Bool.false_eq_true, if_false, List.getLast?_concat, List.dropLast_concat]
    rw [pullTrace_idle fs ys.length (processRawEvent w fs raw []).1 ys
      (le_refl _)]
    simp

theorem alookup_aerase_self {α β : Type} [DecidableEq α]
    (l : List (α × β)) (k : α) : alookup (aerase l k) k = none := by
  induction l with
  | nil => rfl
  | cons e rest ih =>
    unfold aerase
    by_cases h : e.1 = k
    · rw [if_pos h]
      exact ih
    · rw [if_neg h]
      unfold alookup
      rw [if_neg h]
      exact ih

theorem alookup_aerase_ne {α β : Type} [DecidableEq α]
    (l : List (α × β)) (k k' : α) (h : k' ≠ k) :
    alookup (aerase l k) k' = alookup l k' := by
  induction l with
  | nil => rfl
  | cons e rest ih =>
    by_cases he : e.1 = k
    · have hne : ¬ e.1 = k' := by
        rw [he]
        exact fun hh => h hh.symm
      simp only [aerase, if_pos he, alookup, if_neg hne, ih]
    · simp only [aerase, if_neg he, alookup, ih]

/-- Inserting a fresh pair at the front of both maps preserves the
mirror property. -/
theorem mirror_cons {M : List (Nat × PathBuf)} {P : List (PathBuf × Nat)}
    (hm : ∀ wd p, alookup M wd = some p ↔ alookup P p = some wd)
    {wd0 : Nat} {p0 : PathBuf}
    (hw : alookup M wd0 = none) (hp : alookup P p0 = none) :
    ∀ wd p, alookup ((wd0, p0) :: M) wd = some p ↔
      alookup ((p0, wd0) :: P) p = some wd := by
  intro wd p
  show (if wd0 = wd then some p0 else alookup M wd) = some p ↔
    (if p0 = p then some wd0 else alookup P p) = some wd
  by_cases h1 : wd0 = wd
  · subst h1
    rw [if_pos rfl]
    by_cases h2 : p0 = p
    · subst h2
      rw [if_pos rfl]
      simp
    · rw [if_neg h2]
      constructor
      · intro he
        exact absurd (Option.some.inj he) h2
      · intro he
        have hx := (hm wd0 p).mpr he
        rw [hw] at hx
        exact absurd hx (by simp)
  · rw [if_neg h1]
    by_cases h2 : p0 = p
    · subst h2
      rw [if_pos rfl]
      constructor
      · intro he
        have hx := (hm wd p0).mp he
        rw [hp] at hx
        exact absurd hx (by simp)
      · intro he
        exact absurd (Option.some.inj he) h1
    · rw [if_neg h2]
      exact hm wd p

/-- Removing a paired entry from both maps preserves the mirror
property. -/
theorem mirror_erase {M : List (Nat × PathBuf)} {P : List (PathBuf × Nat)}
    (hm : ∀ wd p, alookup M wd = some p ↔ alookup P p = some wd)
    {wd0 : Nat} {p0 : PathBuf} (h : alookup P p0 = some wd0) :
    ∀ wd p, alookup (aerase M wd0) wd = some p ↔
      alookup (aerase P p0) p = some wd := by
  intro wd p
  by_cases h1 : wd = wd0
  · subst h1
    rw [alookup_aerase_self]
    constructor
    · intro he
      exact absurd he (by simp)
    · intro he
      by_cases h2 : p = p0
      · subst h2
        rw [alookup_aerase_self] at he
        exact absurd he (by simp)
      · rw [alookup_aerase_ne _ _ _ h2] at he
        have hM := (hm wd p).mpr he
        have hM0 := (hm wd p0).mpr h
        rw [hM0] at hM
        exact absurd (Option.some.inj hM) (fun hh => h2 hh.symm)
  · rw [alookup_aerase_ne _ _ _ h1]
    by_cases h2 : p = p0
    · subst h2
      rw [alookup_aerase_self]
      constructor
      · intro he
        have hx := (hm wd p).mp he
        rw [h] at hx
        exact absurd (Option.some.inj hx) (fun hh => h1 hh.symm)
      · intro he
        exact absurd he (by simp)
    · rw [alookup_aerase_ne _ _ _ h2]
      exact hm wd p

theorem addOne_excluded (s : LinuxEventStreamer) (env : LinuxEnv)
    (p : PathBuf) (h : check_path s.options p = false) :
    s.addOne env p = s := by
  unfold LinuxEventStreamer.addOne
  rw [h]
  rfl

theorem addOne_present (s : LinuxEventStreamer) (env : LinuxEnv)
    (p : PathBuf) (h : (alookup s.path_map p).isSome = true) :
    s.addOne env p = s := by
  unfold LinuxEventStreamer.addOne
  by_cases hc : check_path s.options p
  · rw [hc]
    simp [h]
  · rw [Bool.eq_false_iff.mpr hc]
    rfl

theorem addOne_alloc_none (s : LinuxEventStreamer) (env : LinuxEnv)
    (p : PathBuf) (h1 : check_path s.options p = true)
    (h2 : alookup s.path_map p = none) (ha : env.alloc p = none) :
    s.addOne env p = s := by
  unfold LinuxEventStreamer.addOne
  rw [h1, h2, ha]
  rfl

theorem addOne_wd_dup (s : LinuxEventStreamer) (env : LinuxEnv)
    (p : PathBuf) (wd : Nat) (q : PathBuf)
    (h1 : check_path s.options p = true)
    (h2 : alookup s.path_map p = none) (ha : env.alloc p = some wd)
    (h3 : alookup s.watch_descriptor_map wd = some q) :
    s.addOne env p
      = { s with inotify_watches := insertNat s.inotify_watches wd } := by
  unfold LinuxEventStreamer.addOne
  simp [h1, h2, ha, h3]

theorem addOne_insert (s : LinuxEventStreamer) (env : LinuxEnv)
    (p : PathBuf) (wd : Nat) (h1 : check_path s.options p = true)
    (h2 : alookup s.path_map p = none) (ha : env.alloc p = some wd)
    (h3 : alookup s.watch_descriptor_map wd = none) :
    s.addOne env p = { s with
      inotify_watches := insertNat s.inotify_watches wd,
      path_map := (p, wd) :: s.path_map,
      watch_descriptor_map := (wd, p) :: s.watch_descriptor_map } := by
  unfold LinuxEventStreamer.addOne
  simp [h1, h2, ha, h3]

theorem addOne_options (s : LinuxEventStreamer) (env : LinuxEnv)
    (p : PathBuf) : (s.addOne env p).options = s.options := by
  by_cases h1 : check_path s.options p = true
  · rcases h2 : alookup s.path_map p with _ | wd0
    · rcases ha : env.alloc p with _ | wd
      · rw [addOne_alloc_none s env p h1 h2 ha]
      · rcases h3 : alookup s.watch_descriptor_map wd with _ | q
        · rw [addOne_insert s env p wd h1 h2 ha h3]
        · rw [addOne_wd_dup s env p wd q h1 h2 ha h3]
    · rw [addOne_present s env p (by rw [h2]; rfl)]
  · rw [addOne_excluded s env p (Bool.eq_false_iff.mpr h1)]

theorem addPaths_options (env : LinuxEnv) :
    ∀ (paths : List PathBuf) (s : LinuxEventStreamer),
      (s.addPaths env paths).options = s.options := by
  intro paths
  induction paths with
  | nil => intro s; rfl
  | cons p rest ih =>
    intro s
    show ((s.addOne env p).addPaths env rest).options = s.options
    rw [ih, addOne_options]

theorem add_options (s : LinuxEventStreamer) (env : LinuxEnv)
    (pat : String) : (s.add env pat).options = s.options := by
  unfold LinuxEventStreamer.add
  split
  · rfl
  · rw [addPaths_options]

theorem mirror_addOne {s : LinuxEventStreamer} (env : LinuxEnv)
    (p : PathBuf) (hm : Mirror s) : Mirror (s.addOne env p) := by
  by_cases h1 : check_path s.options p = true
  · rcases h2 : alookup s.path_map p with _ | wd0
    · rcases ha : env.alloc p with _ | wd
      · rw [addOne_alloc_none s env p h1 h2 ha]
        exact hm
      · rcases h3 : alookup s.watch_descriptor_map wd with _ | q
        · rw [addOne_insert s env p wd h1 h2 ha h3]
          intro wd' p'
          exact mirror_cons hm h3 h2 wd' p'
        · rw [addOne_wd_dup s env p wd q h1 h2 ha h3]
          exact hm
    · rw [addOne_present s env p (by rw [h2]; rfl)]
      exact hm
  · rw [addOne_excluded s env p (Bool.eq_false_iff.mpr h1)]
    exact hm

theorem mirror_addPaths (env : LinuxEnv) :
    ∀ (paths : List PathBuf) (s : LinuxEventStreamer), Mirror s →
      Mirror (s.addPaths env paths) := by
  intro paths
  induction paths with
  | nil => intro s hm; exact hm
  | cons p rest ih =>
    intro s hm
    exact ih (s.addOne env p) (mirror_addOne env p hm)

theorem mirror_add {s : LinuxEventStreamer} (env : LinuxEnv)
    (pat : String) (hm : Mirror s) : Mirror (s.add env pat) := by
  unfold LinuxEventStreamer.add
  split
  · exact hm
  · exact mirror_addPaths env _ s hm

theorem not_mem_removeNat (l : List Nat) (n : Nat) : n ∉ removeNat l n := by
  intro hmem
  have := (List.mem_filter.mp hmem).2
  simp at this

theorem moveUnregister_tracked (s : LinuxEventStreamer) (path : PathBuf)
    (events : List Event) (wd : Nat) (h : alookup s.path_map path = some wd) :
    s.moveUnregister path events
      = ({ s with
            inotify_watches := removeNat s.inotify_watches wd,
            watch_descriptor_map := aerase s.watch_descriptor_map wd,
            path_map := aerase s.path_map path },
          events ++ [Event.Delete path]) := by
  unfold LinuxEventStreamer.moveUnregister
  simp only [h]

theorem moveUnregister_untracked (s : LinuxEventStreamer) (path : PathBuf)
    (events : List Event) (h : alookup s.path_map path = none) :
    s.moveUnregister path events = (s, events) := by
  unfold LinuxEventStreamer.moveUnregister
  simp only [h]

theorem moveUnregister_options (s : LinuxEventStreamer) (path : PathBuf)
    (events : List Event) :
    (s.moveUnregister path events).1.options = s.options := by
  unfold LinuxEventStreamer.moveUnregister
  rcases hl : alookup s.path_map path with _ | wd <;> simp only [hl]

theorem mirror_moveUnregister (s : LinuxEventStreamer) (path : PathBuf)
    (events : List Event) (hm : Mirror s) :
    Mirror (s.moveUnregister path events).1 := by
  unfold LinuxEventStreamer.moveUnregister
  rcases hl : alookup s.path_map path with _ | wd
  · simp only [hl]
    exact hm
  · simp only [hl]
    intro wd' p'
    exact mirror_erase hm hl wd' p'

theorem handle_move_timeout (s : LinuxEventStreamer) (env : LinuxEnv)
    (path : PathBuf) (events : List Event)
    (h : rotationPoll (env.existsSeq ((env.readLink path).getD path)) = none) :
    s.handle_move env path events = s.moveUnregister path events := by
  unfold LinuxEventStreamer.handle_move
  simp only [h]

theorem handle_move_success (s : LinuxEventStreamer) (env : LinuxEnv)
    (path : PathBuf) (events : List Event) (k : Nat)
    (h : rotationPoll (env.existsSeq ((env.readLink path).getD path)) = some k) :
    s.handle_move env path events
      = (if check_path (match path.toStr with
            | some str => (s.moveUnregister path events).1.add env str
            | none => (s.moveUnregister path events).1).options path then
          ((match path.toStr with
            | some str => (s.moveUnregister path events).1.add env str
            | none => (s.moveUnregister path events).1),
            (s.moveUnregister path events).2 ++ [Event.Create path])
        else
          ((match path.toStr with
            | some str => (s.moveUnregister path events).1.add env str
            | none => (s.moveUnregister path events).1),
            (s.moveUnregister path events).2)) := by
  unfold LinuxEventStreamer.handle_move
  simp only [h]

theorem mirror_handle_move (s : LinuxEventStreamer) (env : LinuxEnv)
    (path : PathBuf) (events : List Event) (hm : Mirror s) :
    Mirror (s.handle_move env path events).1 := by
  rcases hpoll : rotationPoll (env.existsSeq ((env.readLink path).getD path))
    with _ | k
  · rw [handle_move_timeout s env path events hpoll]
    exact mirror_moveUnregister s path events hm
  · rw [handle_move_success s env path events k hpoll]
    have hs2 : Mirror (match path.toStr with
        | some str => (s.moveUnregister path events).1.add env str
        | none => (s.moveUnregister path events).1) := by
      rcases path.toStr with _ | str
      · exact mirror_moveUnregister s path events hm
      · exact mirror_add env str (mirror_moveUnregister s path events hm)
    split
    · exact hs2
    · exact hs2

theorem handle_delete_state_untracked (s : LinuxEventStreamer)
    (base : PathBuf) (n : String) (isdir : Bool) (events : List Event)
    (h : alookup s.path_map (base.join n) = none) :
    (s.handle_delete base (some n) isdir events).1 = s := by
  unfold LinuxEventStreamer.handle_delete
  simp only [h]
  split <;> rfl

theorem handle_delete_state_tracked (s : LinuxEventStreamer)
    (base : PathBuf) (n : String) (isdir : Bool) (events : List Event)
    (wd : Nat) (h : alookup s.path_map (base.join n) = some wd) :
    (s.handle_delete base (some n) isdir events).1
      = { s with
          watch_descriptor_map := aerase s.watch_descriptor_map wd,
          path_map := aerase s.path_map (base.join n) } := by
  unfold LinuxEventStreamer.handle_delete
  simp only [h]
  split <;> rfl

theorem mirror_handle_delete (s : LinuxEventStreamer) (base : PathBuf)
    (name : Option String) (isdir : Bool) (events : List Event)
    (hm : Mirror s) : Mirror (s.handle_delete base name isdir events).1 := by
  rcases name with _ | n
  · exact hm
  · rcases hl : alookup s.path_map (base.join n) with _ | wd
    · rw [handle_delete_state_untracked s base n isdir events hl]
      exact hm
    · rw [handle_delete_state_tracked s base n isdir events wd hl]
      intro wd' p'
      exact mirror_erase hm hl wd' p'

theorem mirror_handle_create (s : LinuxEventStreamer) (env : LinuxEnv)
    (base : PathBuf) (name : Option String) (isdir : Bool)
    (events : List Event) (hm : Mirror s) :
    Mirror (s.handle_create env base name isdir events).1 := by
  rcases name with _ | n
  · exact hm
  · have hs1 : Mirror (match (base.join n).toStr with
        | some str => s.add env str
        | none => s) := by
      rcases (base.join n).toStr with _ | str
      · exact hm
      · exact mirror_add env str hm
    unfold LinuxEventStreamer.handle_create
    dsimp only
    split
    · split
      · exact hs1
      · exact hs1
    · split
      · exact hs1
      · split
        · exact mirror_add env _ hs1
        · exact mirror_add env _ hs1

theorem mirror_dispatch (s : LinuxEventStreamer) (env : LinuxEnv)
    (raw : LinuxRawEvent) (events : List Event) (hm : Mirror s) :
    Mirror (s.dispatch env raw events).1 := by
  unfold LinuxEventStreamer.dispatch
  split
  · exact hm
  · split
    · exact mirror_handle_create _ _ _ _ _ _ hm
    · split
      · exact mirror_handle_delete _ _ _ _ _ hm
      · split
        · unfold LinuxEventStreamer.handle_modify
          split
          · exact hm
          · exact hm
        · split
          · exact mirror_handle_move _ _ _ _ hm
          · exact hm

theorem mirror_applyOp (s : LinuxEventStreamer) (op : WatchOp)
    (hm : Mirror s) : Mirror (applyOp s op) := by
  rcases op with ⟨env, pat⟩ | ⟨env, raw⟩
  · exact mirror_add env pat hm
  · exact mirror_dispatch s env raw [] hm

theorem mirror_applyOps :
    ∀ (ops : List WatchOp) (s : LinuxEventStreamer), Mirror s →
      Mirror (applyOps s ops) := by
  intro ops
  induction ops with
  | nil => intro s hm; exact hm
  | cons op rest ih =>
    intro s hm
    exact ih (applyOp s op) (mirror_applyOp s op hm)

/-- C5: starting from a fresh descriptor-backend state, after any
sequence of `add()` and raw-record reconciliation operations (which
cover the delete/move unregistrations) the handle→path map and the
path→handle map are exact mirrors of each other; moreover the per-path
registration step leaves the state unchanged for a path already
tracked, and leaves both maps unchanged for a watch descriptor already
present. -/
theorem c5_map_mirror (opts : Rules) (ops : List WatchOp) :
    Mirror (applyOps (LinuxEventStreamer.new opts) ops)
    ∧ (∀ (s : LinuxEventStreamer) (env : LinuxEnv) (p : PathBuf),
        (alookup s.path_map p).isSome = true → s.addOne env p = s)
    ∧ (∀ (s : LinuxEventStreamer) (env : LinuxEnv) (p : PathBuf)
        (wd : Nat) (q : PathBuf), env.alloc p = some wd →
        alookup s.watch_descriptor_map wd = some q →
        (s.addOne env p).path_map = s.path_map
        ∧ (s.addOne env p).watch_descriptor_map
            = s.watch_descriptor_map) := by
  refine ⟨?_, ?_, ?_⟩
  · apply mirror_applyOps
    intro wd p
    constructor
    · intro h
      exact absurd h (by simp [alookup, LinuxEventStreamer.new])
    · intro h
      exact absurd h (by simp [alookup, LinuxEventStreamer.new])
  · intro s env p h
    exact addOne_present s env p h
  · intro s env p wd q ha h3
    by_cases h1 : check_path s.options p = true
    · rcases h2 : alookup s.path_map p with _ | wd0
      · rw [addOne_wd_dup s env p wd q h1 h2 ha h3]
        exact ⟨rfl, rfl⟩
      · rw [addOne_present s env p (by rw [h2]; rfl)]
        exact ⟨rfl, rfl⟩
    · rw [addOne_excluded s env p (Bool.eq_false_iff.mpr h1)]
      exact ⟨rfl, rfl⟩

/-- Witness for C5 at a concrete operation sequence (an `add` followed
by the reconciliation of a delete record) and a concrete duplicate
registration. -/
theorem c5_map_mirror_witness :
    (alookup (LinuxEventStreamer.watch_descriptor_map
          (applyOps (LinuxEventStreamer.new Rules.new) opsW)) 1 = some paW
      ↔ alookup (LinuxEventStreamer.path_map
          (applyOps (LinuxEventStreamer.new Rules.new) opsW)) paW = some 1)
    ∧ sMove.addOne envMove paW = sMove :=
  ⟨(c5_map_mirror Rules.new opsW).1 1 paW,
    (c5_map_mirror Rules.new opsW).2.1 sMove envMove paW (by decide)⟩

/-- C3 counterexample: in the state `sMove` tracking the symbolic link
`paW` (whose `read_link` target is `pbW`, which exists immediately),
reconciling the move-self record emits Delete and then Create for the
original path `paW` — no event ever mentions the resolved path `pbW`,
contradicting the claim that the resolved path is re-added and Create
is emitted for the new/resolved path. -/
theorem c3_counterexample :
    (sMove.handle_move envMove paW []).2
      = [Event.Delete paW, Event.Create paW]
    ∧ envMove.readLink paW = some pbW
    ∧ pbW ≠ paW
    ∧ Event.Create pbW ∉ (sMove.handle_move envMove paW []).2 := by
  decide

/-- C3 (amended): for a tracked file's move-self record, exactly one
Delete for the old path is emitted and the path is unregistered from
the OS watch set and from both maps; the real target is resolved by
following a symbolic link (falling back to the original path) and its
existence is polled with the 5 s / 100 ms bounded loop; on timeout no
further event is emitted; on success the ORIGINAL path (not the
resolved target) is re-added via `add()` and, if admitted, exactly one
Create for the ORIGINAL path is emitted. -/
theorem c3_handle_move_amended (s : LinuxEventStreamer) (env : LinuxEnv)
    (path : PathBuf) (events : List Event) (wd : Nat)
    (h : alookup s.path_map path = some wd) :
    (rotationPoll (env.existsSeq ((env.readLink path).getD path)) = none →
      (s.handle_move env path events).2 = events ++ [Event.Delete path]
      ∧ alookup (s.handle_move env path events).1.path_map path = none
      ∧ alookup
          (s.handle_move env path events).1.watch_descriptor_map wd = none
      ∧ wd ∉ (s.handle_move env path events).1.inotify_watches)
    ∧ (∀ k,
        rotationPoll (env.existsSeq ((env.readLink path).getD path)) = some k →
        (s.handle_move env path events).2
          = events ++ [Event.Delete path]
            ++ (if check_path s.options path = true then [Event.Create path]
                else [])) := by
  constructor
  · intro hto
    rw [handle_move_timeout s env path events hto,
      moveUnregister_tracked s path events wd h]
    exact ⟨rfl, alookup_aerase_self _ _, alookup_aerase_self _ _,
      not_mem_removeNat _ _⟩
  · intro k hsk
    rw [handle_move_success s env path events k hsk]
    have hopt : (match path.toStr with
        | some str => (s.moveUnregister path events).1.add env str
        | none => (s.moveUnregister path events).1).options = s.options := by
      rcases path.toStr with _ | str
      · exact moveUnregister_options s path events
      · rw [add_options, moveUnregister_options]
    by_cases hcp : check_path s.options path = true
    · have hcond : check_path (match path.toStr with
          | some str => (s.moveUnregister path events).1.add env str
          | none => (s.moveUnregister path events).1).options path = true := by
        rw [hopt]
        exact hcp
      rw [if_pos hcond, moveUnregister_tracked s path events wd h,
        if_pos hcp]
    · have hcond : ¬ check_path (match path.toStr with
          | some str => (s.moveUnregister path events).1.add env str
          | none => (s.moveUnregister path events).1).options path = true := by
        rw [hopt]
        exact hcp
      rw [if_neg hcond, moveUnregister_tracked s path events wd h,
        if_neg hcp]
      simp

/-- Witness for the amended C3 at the concrete rotation scenario
(tracked path, target appears at once, admitted by the empty rules). -/
theorem c3_handle_move_amended_witness :
    (sMove.handle_move envMove paW []).2
      = [] ++ [Event.Delete paW]
        ++ (if check_path sMove.options paW = true then [Event.Create paW]
            else []) :=
  (c3_handle_move_amended sMove envMove paW [] 0 (by decide)).2 0 (by decide)

/-- C4 counterexample: in the state `s4` watching `/data`, reconciling
the native create record for the pre-populated subdirectory `/data/sub`
emits Create only for the admitted descendant file `/data/sub/x.log` —
no Create event is emitted for the directory itself, contradicting the
claimed Create(directory)-before-descendants output. -/
theorem c4_counterexample :
    (s4.handle_create env4 dirData (some ("sub")) true []).2
      = [Event.Create xlogData]
    ∧ Event.Create subData
        ∉ (s4.handle_create env4 dirData (some ("sub")) true []).2 := by
  decide

/-- C4 (amended): reconciling a native create record for a new
subdirectory yields a Create event for every globbed descendant that is
a file and is admitted, in glob order, and nothing else — in
particular no Create event for the (non-file) directory itself. -/
theorem c4_dir_create_amended (s : LinuxEventStreamer) (env : LinuxEnv)
    (base : PathBuf) (n : String) (events : List Event) (g : String)
    (paths : List PathBuf)
    (hg : ((base.join n).join ("**/*")).toStr = some g)
    (hglob : env.glob g = some paths) :
    (s.handle_create env base (some n) true events).2
      = events ++ (paths.filter
          (fun p => env.isFile p && check_path s.options p)).map Event.Create
    ∧ (env.isFile (base.join n) = false →
        Event.Create (base.join n) ∉ ((paths.filter
          (fun p => env.isFile p && check_path s.options p)).map
            Event.Create)) := by
  constructor
  · unfold LinuxEventStreamer.handle_create
    dsimp only
    rcases hts : (base.join n).toStr with _ | str <;>
      simp only [hts, hg, hglob, add_options, Bool.not_true,
        Bool.false_eq_true, if_false]
  · intro hnf hmem
    rcases List.mem_map.mp hmem with ⟨q, hq, heq⟩
    have hqp : q = base.join n := by simpa using heq
    subst hqp
    have hf := (List.mem_filter.mp hq).2
    rw [hnf] at hf
    simp at hf

/-- Witness for the amended C4 at the concrete directory-create
scenario (one admitted descendant file, non-file directory). -/
theorem c4_dir_create_amended_witness :
    (s4.handle_create env4 dirData (some ("sub")) true []).2
      = [] ++ ([xlogData].filter
          (fun p => env4.isFile p && check_path s4.options p)).map Event.Create
    ∧ Event.Create subData
        ∉ (([xlogData].filter
            (fun p => env4.isFile p && check_path s4.options p)).map
              Event.Create) :=
  ⟨(c4_dir_create_amended s4 env4 dirData ("sub") [] ("/data/sub/**/*")
      [xlogData] (by decide) (by decide)).1,
    (c4_dir_create_amended s4 env4 dirData ("sub") [] ("/data/sub/**/*")
      [xlogData] (by decide) (by decide)).2 (by decide)⟩

/-- C10: a non-directory delete record carrying a child name, whose
watch descriptor resolves to a known base path, makes the dispatcher
emit a Delete event for the computed child path regardless of the
watch-state maps and of the Rule Engine — no hypothesis about tracking
or admission of the child path is needed. -/
theorem c10_delete_ungated (s : LinuxEventStreamer) (env : LinuxEnv)
    (raw : LinuxRawEvent) (events : List Event) (base : PathBuf) (n : String)
    (hwd : alookup s.watch_descriptor_map raw.wd = some base)
    (hcr : raw.create = false) (hdel : raw.delete = true)
    (hname : raw.name = some n) (hdir : raw.isdir = false) :
    (s.dispatch env raw events).2 = events ++ [Event.Delete (base.join n)] := by
  unfold LinuxEventStreamer.dispatch
  simp only [hwd, hcr, hdel, Bool.false_eq_true, if_false, if_true]
  unfold LinuxEventStreamer.handle_delete
  simp only [hname, hdir, Bool.not_false, if_true]

/-- Witness for C10 at a concrete state whose rules exclude every path
and whose maps do not contain the child: the Delete is still emitted. -/
theorem c10_delete_ungated_witness :
    (sDel.dispatch envEx rawDel []).2
      = [] ++ [Event.Delete (dirData.join ("x"))] :=
  c10_delete_ungated sDel envEx rawDel [] dirData ("x") (by decide) rfl rfl
    rfl rfl

theorem containsPath_insert (s : List PathBuf) (p q : PathBuf) :
    containsPath (insertPath s p) q
      = (containsPath s q || decide (q = p)) := by
  unfold containsPath insertPath
  by_cases hq : q = p
  · subst hq
    by_cases hp : q ∈ s
    · simp [hp]
    · simp [hp]
  · by_cases hp : p ∈ s
    · simp [hp, hq]
    · simp [hp, List.mem_cons, hq]

theorem containsPath_foldl_insert (entries : List PathBuf) :
    ∀ (s : List PathBuf) (q : PathBuf),
      containsPath (entries.foldl insertPath s) q
        = (containsPath s q || decide (q ∈ entries)) := by
  induction entries with
  | nil =>
    intro s q
    simp
  | cons e rest ih =>
    intro s q
    show containsPath (rest.foldl insertPath (insertPath s e)) q = _
    rw [ih (insertPath s e) q, containsPath_insert]
    by_cases hq : q = e
    · subst hq
      simp
    · simp [hq, List.mem_cons, Bool.or_assoc]

/-- C7 counterexample: the recursive glob of the non-file path `/data`
matched both the subdirectory `/data/sub` and a file; `add` inserted
the subdirectory into the tracked-file set too, contradicting the
claimed "every matched file (and only files)". -/
theorem c7_counterexample :
    ((MacOsWatcher.new Rules.new).add fsDirGlob dirData).toOption.map
        (fun w2 => containsPath w2.watched_files subData) = some true
    ∧ fsDirGlob.isFile subData = false := by
  decide

/-- C7 (amended): when the path is admitted and representable, `add` on
a file path inserts exactly that path into the tracked-file set and
records the captured path string as a subscription root; `add` on a
non-file path globs the (debug-formatted) recursive pattern and inserts
every matched entry — file or directory alike, with no file-kind
filter — while retaining the raw directory string as a subscription
root rather than inserting the directory itself as a tracked entry (it
enters the tracked set only if the glob matched it). -/
theorem c7_add_amended (w : MacOsWatcher) (fs : FileSystem) (p : PathBuf)
    (str : String) (hm : w.rules.matches p = true)
    (hstr : p.toStr = some str) :
    (fs.isFile p = true → ∀ q,
      (w.add fs p).toOption.map
          (fun w2 => (containsPath w2.watched_files q, w2.watched_dirs))
        = some ((containsPath w.watched_files q || decide (q = p)),
            w.watched_dirs ++ [str]))
    ∧ (fs.isFile p = false → ∀ entries,
        fs.glob (debugQuote str ++ ("/**/*")) = some entries → ∀ q,
        (w.add fs p).toOption.map
            (fun w2 => (containsPath w2.watched_files q, w2.watched_dirs))
          = some ((containsPath w.watched_files q || decide (q ∈ entries)),
              w.watched_dirs ++ [str])) := by
  constructor
  · intro hf q
    simp [MacOsWatcher.add, hm, hstr, hf, Except.toOption,
      containsPath_insert]
  · intro hf entries hglob q
    simp [MacOsWatcher.add, hm, hstr, hf, hglob, Except.toOption,
      containsPath_foldl_insert]

/-- Witness for the amended C7: adding the concrete file path `paW`
tracks exactly that path and records its string as a root. -/
theorem c7_add_amended_witness :
    ((MacOsWatcher.new Rules.new).add fsAllFiles paW).toOption.map
        (fun w2 => (containsPath w2.watched_files paW, w2.watched_dirs))
      = some (true, [("a")]) := by
  have h := (c7_add_amended (MacOsWatcher.new Rules.new) fsAllFiles paW ("a")
    (by decide) (by decide)).1 (by decide) paW
  rw [h]
  decide

/-- C6 counterexample: (1) the notification backend's `add` checks the
Rule Engine before text-representability, so a rejected
non-representable path yields `Excluded`, not `InvalidPath` —
contradicting "InvalidPath exactly when the path is not representable
as text"; (2) the descriptor backend's `add` returns no Result at all:
on a pattern whose every expansion is rejected by the rules it silently
returns with the state unchanged, so no `Excluded` error exists on that
backend. -/
theorem c6_counterexample :
    wInc.add fsAllFiles pBad
      = Except.error (WatchError.Excluded ("has been excluded"))
    ∧ pBad.toStr = none
    ∧ sEx.add envEx ("/a") = sEx :=
  ⟨rfl, rfl, rfl⟩

/-- C6 (amended): for the notification backend, `add` returns the
`Excluded` error exactly when the Rule Engine rejects the path (this
check precedes the representability check), the `InvalidPath` error
exactly when the path is admitted and either not representable as text
or (non-file branch) the glob expansion fails outright, and success
otherwise.  The descriptor backend's `add` returns no `Result`: a glob
failure and a rejected path are logged and skipped with no error
value. -/
theorem c6_add_amended (w : MacOsWatcher) (fs : FileSystem) (p : PathBuf)
    (s : LinuxEventStreamer) (env : LinuxEnv) (pat : String) (q : PathBuf) :
    (isExcludedErr (w.add fs p) = !(w.rules.matches p))
    ∧ (isInvalidPathErr (w.add fs p)
        = (w.rules.matches p && macInvalidCond fs p))
    ∧ ((w.add fs p).toOption.isSome
        = (w.rules.matches p && !(macInvalidCond fs p)))
    ∧ (env.glob pat = none → s.add env pat = s)
    ∧ (check_path s.options q = false → s.addOne env q = s) := by
  have hcases : ∀ (f : Except WatchError MacOsWatcher → Bool),
      f (w.add fs p)
        = (if w.rules.matches p = true then
            (match p.toStr with
              | none =>
                f (Except.error (WatchError.InvalidPath ("is an invalid path")))
              | some str =>
                if fs.isFile p = true then
                  f (Except.ok { w with
                    watched_files := insertPath w.watched_files p,
                    watched_dirs := w.watched_dirs ++ [str] })
                else
                  match fs.glob (debugQuote str ++ ("/**/*")) with
                  | some entries =>
                    f (Except.ok { w with
                      watched_files := entries.foldl insertPath w.watched_files,
                      watched_dirs := w.watched_dirs ++ [str] })
                  | none =>
                    f (Except.error
                      (WatchError.InvalidPath ("is an invalid path"))))
          else f (Except.error (WatchError.Excluded ("has been excluded")))) := by
    intro f
    by_cases hm : w.rules.matches p = true
    · rcases hts : p.toStr with _ | str
      · simp [MacOsWatcher.add, hm, hts]
      · by_cases hf : fs.isFile p = true
        · simp [MacOsWatcher.add, hm, hts, hf]
        · rcases hg : fs.glob (debugQuote str ++ ("/**/*")) with _ | entries
          · simp [MacOsWatcher.add, hm, hts, hf, hg]
          · simp [MacOsWatcher.add, hm, hts, hf, hg]
    · simp [MacOsWatcher.add, Bool.eq_false_iff.mpr hm]
  refine ⟨?_, ?_, ?_, ?_, ?_⟩
  · rw [hcases isExcludedErr]
    by_cases hm : w.rules.matches p = true
    · rcases hts : p.toStr with _ | str
      · simp [hm, hts, isExcludedErr]
      · by_cases hf : fs.isFile p = true
        · simp [hm, hts, hf, isExcludedErr]
        · rcases hg : fs.glob (debugQuote str ++ ("/**/*")) with _ | entries
          · simp [hm, hts, hf, hg, isExcludedErr]
          · simp [hm, hts, hf, hg, isExcludedErr]
    · simp [Bool.eq_false_iff.mpr hm, isExcludedErr]
  · rw [hcases isInvalidPathErr]
    by_cases hm : w.rules.matches p = true
    · rcases hts : p.toStr with _ | str
      · simp [hm, hts, isInvalidPathErr, macInvalidCond]
      · by_cases hf : fs.isFile p = true
        · simp [hm, hts, hf, isInvalidPathErr, macInvalidCond]
        · rcases hg : fs.glob (debugQuote str ++ ("/**/*")) with _ | entries
          · simp [hm, hts, hf, hg, isInvalidPathErr, macInvalidCond]
          · simp [hm, hts, hf, hg, isInvalidPathErr, macInvalidCond]
    · simp [Bool.eq_false_iff.mpr hm, isInvalidPathErr]
  · rw [hcases (fun r => r.toOption.isSome)]
    by_cases hm : w.rules.matches p = true
    · rcases hts : p.toStr with _ | str
      · simp [hm, hts, Except.toOption, macInvalidCond]
      · by_cases hf : fs.isFile p = true
        · simp [hm, hts, hf, Except.toOption, macInvalidCond]
        · rcases hg : fs.glob (debugQuote str ++ ("/**/*")) with _ | entries
          · simp [hm, hts, hf, hg, Except.toOption, macInvalidCond]
          · simp [hm, hts, hf, hg, Except.toOption, macInvalidCond]
    · simp [Bool.eq_false_iff.mpr hm, Except.toOption]
  · intro h
    unfold LinuxEventStreamer.add
    simp only [h]
  · intro h
    exact addOne_excluded s env q h

/-- Witness for the amended C6: a failed glob leaves the descriptor
state unchanged, as does an excluded path at the per-path step. -/
theorem c6_add_amended_witness :
    sEx.add envNone ("x") = sEx ∧ sEx.addOne envEx paW = sEx :=
  ⟨(c6_add_amended wFresh fsAllFiles paW sEx envNone ("x") paW).2.2.2.1 rfl,
    (c6_add_amended wFresh fsAllFiles paW sEx envEx ("x") paW).2.2.2.2
      (by decide)⟩

theorem init_thread_some (w : MacOsWatcher) :
    (w.init).fsevent_thread.isSome = true := by
  unfold MacOsWatcher.init
  by_cases h : w.fsevent_thread.isSome = true
  · simp [h]
  · simp [h]

theorem init_of_some (w : MacOsWatcher)
    (h : w.fsevent_thread.isSome = true) : w.init = w := by
  unfold MacOsWatcher.init
  simp [h]

theorem addPaths_noop (s : LinuxEventStreamer) (env : LinuxEnv) :
    ∀ (paths : List PathBuf),
      (∀ p ∈ paths, check_path s.options p = false
        ∨ (alookup s.path_map p).isSome = true) →
      s.addPaths env paths = s := by
  intro paths
  induction paths with
  | nil =>
    intro _
    rfl
  | cons p rest ih =>
    intro h
    have hp := h p (List.mem_cons_self p rest)
    have hstep : s.addOne env p = s := by
      rcases hp with hp | hp
      · exact addOne_excluded s env p hp
      · exact addOne_present s env p hp
    show (s.addOne env p).addPaths env rest = s
    rw [hstep]
    exact ih fun q hq => h q (List.mem_cons_of_mem p hq)

theorem add_noop (s : LinuxEventStreamer) (env : LinuxEnv) (pat : String)
    (h : ∀ paths, env.glob pat = some paths →
      ∀ p ∈ paths, check_path s.options p = false
        ∨ (alookup s.path_map p).isSome = true) :
    s.add env pat = s := by
  unfold LinuxEventStreamer.add
  rcases hg : env.glob pat with _ | paths
  · simp only [hg]
  · simp only [hg]
    exact addPaths_noop s env paths (h paths hg)

theorem init_noop (s : LinuxEventStreamer) (env : LinuxEnv) :
    ∀ (patterns : List String),
      (∀ pat ∈ patterns, ∀ paths, env.glob pat = some paths →
        ∀ p ∈ paths, check_path s.options p = false
          ∨ (alookup s.path_map p).isSome = true) →
      s.init env patterns = s := by
  intro patterns
  induction patterns with
  | nil =>
    intro _
    rfl
  | cons pat rest ih =>
    intro h
    have hstep : s.add env pat = s :=
      add_noop s env pat (h pat (List.mem_cons_self pat rest))
    show List.foldl (fun acc pat => acc.add env pat) (s.add env pat) rest = s
    rw [hstep]
    exact ih fun q hq => h q (List.mem_cons_of_mem pat hq)

/-- C8 counterexample: the descriptor backend's `init` has no once-only
guard: after a first `init` over pattern `/a` (then matching only
`paW`), a second `init` with the filesystem now also matching `pbW`
registers the new path — the second call changes the watcher's state
instead of being a no-op. -/
theorem c8_counterexample :
    alookup (LinuxEventStreamer.path_map
        (((LinuxEventStreamer.new Rules.new).init env8a [("/a")]).init env8b
          [("/a")])) pbW = some 1
    ∧ alookup (LinuxEventStreamer.path_map
        ((LinuxEventStreamer.new Rules.new).init env8a [("/a")])) pbW
      = none := by
  decide

/-- C8 (amended): the notification backend's `init` is guarded: once
the delivery thread exists a repeat call leaves the watcher unchanged
(logged warning, no second spawn), and `init` is idempotent.  The
descriptor backend's `init` has no guard — each call re-runs `add` over
the patterns; a repeat call leaves the state unchanged precisely when
the expansion offers nothing new, i.e. every globbed path is either
rejected by the rules or already tracked. -/
theorem c8_init_amended (w : MacOsWatcher) (roots : List String)
    (s : LinuxEventStreamer) (env : LinuxEnv) (patterns : List String) :
    ((w.init).init = w.init)
    ∧ (w.fsevent_thread = some roots → w.init = w)
    ∧ ((∀ pat ∈ patterns, ∀ paths, env.glob pat = some paths →
          ∀ p ∈ paths, check_path s.options p = false
            ∨ (alookup s.path_map p).isSome = true) →
        s.init env patterns = s) := by
  refine ⟨?_, ?_, ?_⟩
  · exact init_of_some (w.init) (init_thread_some w)
  · intro h
    apply init_of_some
    rw [h]
    rfl
  · exact init_noop s env patterns

/-- Witness for the amended C8: a repeat `init` of an initialized
notification watcher is a no-op, and a descriptor `init` whose whole
expansion is rejected by the rules leaves the state unchanged. -/
theorem c8_init_amended_witness :
    ((wFresh.init).init = wFresh.init)
    ∧ sEx.init envEx [("/a")] = sEx := by
  refine ⟨(c8_init_amended wFresh [] sEx envEx [("/a")]).1, ?_⟩
  apply (c8_init_amended wFresh [] sEx envEx [("/a")]).2.2
  intro pat hpat paths hg p hp
  left
  have hpaths : [paW] = paths := Option.some.inj hg
  rw [← hpaths] at hp
  have hpw : p = paW := by simpa using hp
  subst hpw
  decide

/-- Witness for C9: the record `rawRenMod` appends two events (Create
then Write) and two pulls return them reversed. -/
theorem c9_reverse_pop_order_witness :
    1 < ((processRawEvent wFresh fsAllFiles rawRenMod []).2).length ∧
    pullTrace wFresh fsAllFiles
        ((processRawEvent wFresh fsAllFiles rawRenMod []).2).length [] [rawRenMod]
      = ((processRawEvent wFresh fsAllFiles rawRenMod []).2).reverse :=
  ⟨by decide, c9_reverse_pop_order wFresh fsAllFiles rawRenMod (by decide)⟩

end LogEvents
